import Mathlib

/-!
Shallow embedding of the kitpvpbot combat controller (src/index.js) and
verification of its specification claims.

Conventions of the embedding:
- JavaScript numbers used for positions, health and random draws are
  modelled as rationals (ℚ); timestamps (Date.now()) as integers.
- `Infinity` sentinels (closest-distance, item priority) are modelled as
  `Option`/`none` together with an explicit comparison function mirroring
  IEEE comparisons against Infinity.
- Reference equality on entities (`===`) is modelled as equality of a
  numeric entity id (distinct live entities have distinct ids).
- Awaited fallible actions of the external game client (bot.equip) are
  modelled by an `Except String Unit` outcome supplied as an input.
-/

namespace KitPvp

/-- MAX_SCAN_DISTANCE constant (blocks), src/index.js line 10. -/
def MAX_SCAN_DISTANCE : ℚ := 48

/-- Position vector, as in the vec3 library. -/
structure Vec3 where
  x : ℚ
  y : ℚ
  z : ℚ
deriving DecidableEq, Repr

/-- Full three-dimensional squared distance, as computed by
`Vec3.distanceSquared` of the vec3 library used at line 513. -/
def distanceSquared (a b : Vec3) : ℚ :=
  (a.x - b.x) ^ 2 + (a.y - b.y) ^ 2 + (a.z - b.z) ^ 2

/-- Modelled from the spec (not the code): the squared *planar* distance
the spec's scan description speaks of, i.e. ignoring the vertical (y)
coordinate. Used only to compare the spec's wording with the code. -/
def specPlanarDistanceSquared (a b : Vec3) : ℚ :=
  (a.x - b.x) ^ 2 + (a.z - b.z) ^ 2

/-- A live game entity (a player's avatar in the world). The `id` stands
for JavaScript reference identity. -/
structure Entity where
  id : Nat
  position : Vec3
deriving DecidableEq, Repr

/-- One entry of `bot.players` (Object.entries order preserved): the key
is the username, the value's `.entity` may be null when the player is out
of render distance. -/
structure PlayerEntry where
  username : String
  entity : Option Entity
deriving DecidableEq, Repr

/-- The part of the bot object read by `findClosestPlayer`
(src/index.js lines 500-521). `players = none` models a missing
`bot.players`, `entity = none` a bot not present in the world. -/
structure ScanBot where
  username : String
  entity : Option Entity
  players : Option (List PlayerEntry)
deriving Repr

/-- Scan result `{ username, entity }` built at line 515. -/
structure TargetCandidate where
  username : String
  entity : Entity
deriving DecidableEq, Repr

/-- Comparison `distanceSq < closestDistance` where `closestDistance`
starts as `Infinity` (modelled by `none`): everything is below Infinity. -/
def ltClosest (distanceSq : ℚ) : Option ℚ → Bool
  | none => true
  | some d => distanceSq < d

/-- Loop body of `findClosestPlayer` (lines 508-518): skip the bot's own
username and entries without an entity; otherwise update the running
closest candidate when `distanceSq < closestDistance && distanceSq <=
maxDistanceSq`. -/
def scanStep (botUsername : String) (botPos : Vec3) (maxDistanceSq : ℚ)
    (acc : Option TargetCandidate × Option ℚ) (p : PlayerEntry) :
    Option TargetCandidate × Option ℚ :=
  if p.username = botUsername then acc
  else
    match p.entity with
    | none => acc
    | some e =>
      let distanceSq := distanceSquared botPos e.position
      if ltClosest distanceSq acc.2 && decide (distanceSq ≤ maxDistanceSq)
      then (some ⟨p.username, e⟩, some distanceSq)
      else acc

/-- `findClosestPlayer(bot, maxDistanceSq)`, src/index.js lines 500-521. -/
def findClosestPlayer (bot : ScanBot) (maxDistanceSq : ℚ) :
    Option TargetCandidate :=
  match bot.players, bot.entity with
  | none, _ => none
  | _, none => none
  | some ps, some be =>
    (ps.foldl (scanStep bot.username be.position maxDistanceSq)
      (none, none)).1

/-- Eligibility of a players-map entry during a scan: some other player's
entry whose entity is present and within the (inclusive) scan radius. -/
def eligibleEntry (botUsername : String) (botPos : Vec3)
    (maxDistanceSq : ℚ) (p : PlayerEntry) : Prop :=
  p.username ≠ botUsername ∧
    ∃ e, p.entity = some e ∧
      distanceSquared botPos e.position ≤ maxDistanceSq

/-- Advanced combat knobs of the godlike preset (lines 33-40). -/
structure AdvancedConfig where
  strafeIntervalMs : Nat
  jumpPulseMs : Nat
  jumpChance : ℚ
  healThreshold : ℚ
  healCooldownMs : Int
  aimHeightOffset : ℚ
deriving Repr

/-- A difficulty preset (lines 12-42). `attackDurationMs = none` models
the JavaScript `null`. -/
structure DifficultyPreset where
  name : String
  scanIntervalMs : Nat
  reactionDelayRange : Nat × Nat
  attackDurationMs : Option Nat
  maintainSprint : Bool
  advanced : Option AdvancedConfig
deriving Repr

/-- DIFFICULTY_PRESETS.easy. -/
def easyPreset : DifficultyPreset :=
  { name := "easy", scanIntervalMs := 3500, reactionDelayRange := (900, 2200),
    attackDurationMs := some 4500, maintainSprint := false, advanced := none }

/-- DIFFICULTY_PRESETS.hard. -/
def hardPreset : DifficultyPreset :=
  { name := "hard", scanIntervalMs := 900, reactionDelayRange := (100, 350),
    attackDurationMs := none, maintainSprint := true, advanced := none }

/-- DIFFICULTY_PRESETS.godlike. -/
def godlikePreset : DifficultyPreset :=
  { name := "godlike", scanIntervalMs := 450, reactionDelayRange := (45, 160),
    attackDurationMs := none, maintainSprint := true,
    advanced := some
      { strafeIntervalMs := 650, jumpPulseMs := 220, jumpChance := 35 / 100,
        healThreshold := 14, healCooldownMs := 5500, aimHeightOffset := 13 / 10 } }

/-- Engagement-related state read and written by the pvp timers:
`bot.pvp.target` and the sprint control key. -/
structure PvpState where
  pvpTarget : Option Entity
  sprint : Bool
deriving DecidableEq, Repr

/-- Callback body of the duration-based disengage timer scheduled at
lines 479-486: stop the engagement (and drop sprint when the preset
maintains it) only when `bot.pvp.target === refreshed.entity` still
holds for the entity it was scheduled with. -/
def disengageOnTimeout (difficulty : DifficultyPreset)
    (refreshedEntity : Entity) (s : PvpState) : PvpState :=
  if s.pvpTarget = some refreshedEntity then
    let stopped : PvpState := { s with pvpTarget := none }
    if difficulty.maintainSprint then { stopped with sprint := false }
    else stopped
  else s

/-- Lines 478-487: the scheduled-attack callback creates the disengage
timer (delay, entity it was scheduled for) exactly when the preset has a
non-null `attackDurationMs`. -/
def scheduleDisengage (difficulty : DifficultyPreset)
    (refreshedEntity : Entity) : Option (Nat × Entity) :=
  match difficulty.attackDurationMs with
  | some d => some (d, refreshedEntity)
  | none => none

namespace AttackTimer

/-!
Event-loop model of the attack-timer bookkeeping of `setupPvpLoop`
(src/index.js lines 423-498). Timers get fresh numeric ids in creation
order. `timeoutVar` is the `scheduledAttackTimeout` variable (it keeps
holding a handle even after the timeout fired); `live` is the event
loop's multiset of scheduled, not-yet-fired, not-cancelled attack
timeouts, the timers that are pending in the sense of the spec.
-/

/-- Events that touch the attack timer state. -/
inductive Event where
  /-- A scan found a candidate: `clearTimeout(scheduledAttackTimeout)`
  when set, then schedule a fresh attack timeout (lines 447-451). -/
  | scanCand
  /-- A scan with no candidate (or with the bot absent): the pending
  attack timer is left untouched (lines 428-443). -/
  | scanNone
  /-- The pending attack timeout fires: the event loop removes it from
  the pending set before running its callback. -/
  | fire
  /-- The `end` teardown: `clearTimeout(scheduledAttackTimeout)` when
  set (lines 492-497). -/
  | ended
deriving DecidableEq, Repr

/-- Attack-timer bookkeeping state. -/
structure State where
  nextId : Nat
  timeoutVar : Option Nat
  live : List Nat
deriving DecidableEq, Repr

/-- State at `setupPvpLoop` entry: no timer scheduled. -/
def init : State := ⟨0, none, []⟩

/-- One event-loop step. -/
def step (s : State) : Event → State
  | .scanCand =>
    let cleared :=
      match s.timeoutVar with
      | some t => s.live.erase t
      | none => s.live
    { nextId := s.nextId + 1, timeoutVar := some s.nextId,
      live := cleared ++ [s.nextId] }
  | .scanNone => s
  | .fire =>
    match s.live with
    | [] => s
    | _ :: rest => { s with live := rest }
  | .ended =>
    match s.timeoutVar with
    | some t => { s with live := s.live.erase t }
    | none => s

/-- Run a trace of events from a state. -/
def run (s : State) (events : List Event) : State :=
  events.foldl step s

/-- Reachability invariant: at most one live attack timer exists, it is
the one the `scheduledAttackTimeout` variable holds, and it is the most
recently created timer. -/
def Inv (s : State) : Prop :=
  s.live = [] ∨ ∃ u, s.timeoutVar = some u ∧ s.live = [u] ∧ u + 1 = s.nextId

theorem at_inv_init : Inv init := Or.inl rfl

theorem at_inv_step (s : State) (e : Event) (h : Inv s) : Inv (step s e) := by
  cases e with
  | scanCand =>
    rcases h with h | ⟨u, hv, hl, hn⟩
    · right
      refine ⟨s.nextId, rfl, ?_, rfl⟩
      simp [step, h]
      cases s.timeoutVar <;> simp [List.erase]
    · right
      refine ⟨s.nextId, rfl, ?_, rfl⟩
      simp [step, hv, hl, List.erase_cons_head]
  | scanNone => exact h
  | fire =>
    rcases h with h | ⟨u, hv, hl, hn⟩
    · simp [step, h]
      exact Or.inl h
    · rw [step, hl]
      exact Or.inl rfl
  | ended =>
    rcases h with h | ⟨u, hv, hl, hn⟩
    · cases hv : s.timeoutVar with
      | none => rw [step, hv]; exact Or.inl h
      | some t => rw [step, hv]; exact Or.inl (by simp [h])
    · rw [step, hv]
      simp only [hl, List.erase_cons_head]
      exact Or.inl rfl

theorem at_inv_run (s : State) (events : List Event) (h : Inv s) :
    Inv (run s events) := by
  induction events generalizing s with
  | nil => exact h
  | cons e es ih => exact ih (step s e) (at_inv_step s e h)

end AttackTimer

namespace EquipDebounce

/-!
Event-loop model of `scheduleEquip` (src/index.js lines 319-332): a
request while `equipScheduled` is set returns immediately; otherwise the
flag is set and a gear pass is scheduled; the scheduled callback clears
the flag when it starts. `pending` lists the scheduled, not-yet-started
gear passes by creation id.
-/

/-- Events that touch the equip debounce state. -/
inductive Event where
  /-- A call to `scheduleEquip()` (spawn, inventory change, item pickup,
  death, respawn, post-heal follow-up). -/
  | request
  /-- The scheduled timeout fires: `equipScheduled = false`, then the
  gear pass runs (lines 324-331). -/
  | passStart
deriving DecidableEq, Repr

/-- Equip debounce state. -/
structure State where
  equipScheduled : Bool
  pending : List Nat
  nextId : Nat
deriving DecidableEq, Repr

/-- State at `setupAdvancedCombat` entry. -/
def init : State := ⟨false, [], 0⟩

/-- One event-loop step. -/
def step (s : State) : Event → State
  | .request =>
    if s.equipScheduled then s
    else { equipScheduled := true, pending := s.pending ++ [s.nextId],
           nextId := s.nextId + 1 }
  | .passStart =>
    match s.pending with
    | [] => s
    | _ :: rest => { s with equipScheduled := false, pending := rest }

/-- Run a trace of events from a state. -/
def run (s : State) (events : List Event) : State :=
  events.foldl step s

/-- Reachability invariant: the number of scheduled-but-not-started gear
passes is exactly one when the debounce flag is set, zero otherwise. -/
def Inv (s : State) : Prop :=
  s.pending.length = if s.equipScheduled then 1 else 0

theorem ed_inv_init : Inv init := rfl

theorem ed_inv_step (s : State) (e : Event) (h : Inv s) : Inv (step s e) := by
  cases e with
  | request =>
    by_cases hf : s.equipScheduled
    · simpa [step, hf]
    · simp only [Inv, hf, if_false, List.length_eq_zero] at h
      simp [step, hf, Inv, h]
  | passStart =>
    cases hp : s.pending with
    | nil => simpa [step, hp]
    | cons t rest =>
      rw [step, hp]
      simp only [Inv, hp, List.length_cons] at h
      show rest.length = if false then 1 else 0
      cases hf : s.equipScheduled <;> rw [hf] at h <;> simp at h ⊢
      exact h

theorem ed_inv_run (s : State) (events : List Event) (h : Inv s) :
    Inv (run s events) := by
  induction events generalizing s with
  | nil => exact h
  | cons e es ih => exact ih (step s e) (ed_inv_step s e h)

end EquipDebounce

/-- An inventory item; `name` is the item identifier string. -/
structure Item where
  name : String
  slotIndex : Nat
deriving DecidableEq, Repr

/-- WEAPON_PRIORITY (lines 44-57). -/
def WEAPON_PRIORITY : List String :=
  ["netherite_sword", "diamond_sword", "iron_sword", "stone_sword",
   "golden_sword", "wooden_sword", "netherite_axe", "diamond_axe",
   "iron_axe", "stone_axe", "golden_axe", "wooden_axe"]

/-- ARMOR_PRIORITY.head (lines 60-68). -/
def ARMOR_PRIORITY_head : List String :=
  ["netherite_helmet", "diamond_helmet", "iron_helmet", "chainmail_helmet",
   "golden_helmet", "turtle_helmet", "leather_helmet"]

/-- ARMOR_PRIORITY.torso (lines 69-76). -/
def ARMOR_PRIORITY_torso : List String :=
  ["netherite_chestplate", "diamond_chestplate", "iron_chestplate",
   "chainmail_chestplate", "golden_chestplate", "leather_chestplate"]

/-- ARMOR_PRIORITY.legs (lines 77-84). -/
def ARMOR_PRIORITY_legs : List String :=
  ["netherite_leggings", "diamond_leggings", "iron_leggings",
   "chainmail_leggings", "golden_leggings", "leather_leggings"]

/-- ARMOR_PRIORITY.feet (lines 85-92). -/
def ARMOR_PRIORITY_feet : List String :=
  ["netherite_boots", "diamond_boots", "iron_boots", "chainmail_boots",
   "golden_boots", "leather_boots"]

/-- SHIELD_ITEMS (line 95). -/
def SHIELD_ITEMS : List String := ["shield"]

/-- HEALING_SOUPS (lines 96-101). -/
def HEALING_SOUPS : List String :=
  ["mushroom_stew", "beetroot_soup", "rabbit_stew", "suspicious_stew"]

/-- GOLDEN_APPLES (line 102). -/
def GOLDEN_APPLES : List String := ["enchanted_golden_apple", "golden_apple"]

/-- An item priority: `none` models the JavaScript `Infinity` sentinel. -/
abbrev Priority := Option Nat

/-- The JavaScript `<` on priorities where `none` is `Infinity`:
`Infinity < x` is false for every x, and any finite value is below
`Infinity`. -/
def priorityLt : Priority → Priority → Bool
  | none, _ => false
  | some _, none => true
  | some a, some b => a < b

/-- `getItemPriority(priorityList, item)` (lines 589-595): `Infinity`
for a missing item or one absent from the table, else its index. -/
def getItemPriority (priorityList : List String) (item : Option Item) :
    Priority :=
  match item with
  | none => none
  | some it =>
    match priorityList.indexOf? it.name with
    | none => none
    | some i => some i

/-- The inventory surface of the external client: `items()` enumerates
held items, `slots` is the raw slot array. -/
structure Inventory where
  items : List Item
  slots : Nat → Option Item

/-- The part of the bot object the gear engine reads. A `none`
`getEquipmentDestSlot` models the `typeof bot.getEquipmentDestSlot !==
'function'` guard. -/
structure GearBot where
  inventory : Option Inventory
  getEquipmentDestSlot : Option (String → Option Nat)

/-- `findBestInventoryItem(bot, priorityList)` (lines 570-587): fold
over the inventory keeping the strictly best-ranked item seen so far. -/
def findBestInventoryItem (bot : GearBot) (priorityList : List String) :
    Option Item :=
  match bot.inventory with
  | none => none
  | some inv =>
    (inv.items.foldl
      (fun (acc : Option Item × Priority) item =>
        let priority := getItemPriority priorityList (some item)
        if priorityLt priority acc.2 then (some item, priority) else acc)
      (none, none)).1

/-- `getEquippedItem(bot, destination)` (lines 557-568). -/
def getEquippedItem (bot : GearBot) (destination : String) : Option Item :=
  match bot.getEquipmentDestSlot, bot.inventory with
  | some destSlot, some inv =>
    match destSlot destination with
    | none => none
    | some slot => inv.slots slot
  | _, _ => none

/-- Check that the pattern occurs at the head of the text. -/
def patternAt : List Char → List Char → Bool
  | _, [] => true
  | [], _ :: _ => false
  | t :: ts, p :: ps => t = p && patternAt ts ps

/-- Check that the pattern occurs somewhere in the text. -/
def patternIn (text pattern : List Char) : Bool :=
  match text with
  | [] => pattern.isEmpty
  | _ :: rest => patternAt text pattern || patternIn rest pattern

/-- The case-insensitive test `/item is not in inventory/i.test(msg)` of
line 550, as substring containment on the lowercased message. -/
def itemNotInInventoryTest (msg : String) : Bool :=
  patternIn (msg.data.map Char.toLower) "item is not in inventory".data

/-- `equipBestItemForSlot(bot, priorityList, destination)` (lines
532-555). The first component records the equip call issued, if any
(whether or not it succeeded); the second is the function's outcome:
`Except.error` when an equip failure is rethrown to the caller.
`equipOutcome` is the external client's response to the equip call. -/
def equipBestItemForSlot (bot : GearBot) (priorityList : List String)
    (destination : String) (equipOutcome : Except String Unit) :
    Option Item × Except String Unit :=
  if priorityList.isEmpty then (none, .ok ())
  else
    match findBestInventoryItem bot priorityList with
    | none => (none, .ok ())
    | some best =>
      let equipped := getEquippedItem bot destination
      let equippedPriority := getItemPriority priorityList equipped
      let candidatePriority := getItemPriority priorityList (some best)
      if priorityLt candidatePriority equippedPriority then
        match equipOutcome with
        | .ok _ => (some best, .ok ())
        | .error msg =>
          if itemNotInInventoryTest msg then (some best, .ok ())
          else (some best, .error msg)
      else (none, .ok ())

/-- Movement-key state touched by the strafe routine: the strafe
direction closure variable and the three control keys. -/
structure MoveState where
  strafeDirection : Int
  left : Bool
  right : Bool
  jump : Bool
deriving DecidableEq, Repr

/-- `stopStrafe` (lines 313-317): release both lateral keys and jump. -/
def stopStrafe (s : MoveState) : MoveState :=
  { s with left := false, right := false, jump := false }

/-- `strafeTick` (lines 336-352). `randomDraw` is the `Math.random()`
value of this tick. The second component is the jump-release timer
scheduled by a jump pulse, holding its delay in ms. -/
def strafeTick (advanced : AdvancedConfig) (target : Option Entity)
    (randomDraw : ℚ) (s : MoveState) : MoveState × Option Nat :=
  match target with
  | none => (stopStrafe s, none)
  | some _ =>
    let dir := s.strafeDirection * (-1)
    let moveRight := dir > 0
    let s1 : MoveState :=
      { s with strafeDirection := dir, right := moveRight, left := !moveRight }
    if advanced.jumpChance ≠ 0 ∧ randomDraw < advanced.jumpChance then
      ({ s1 with jump := true },
       some (if advanced.jumpPulseMs = 0 then 200 else advanced.jumpPulseMs))
    else (s1, none)

/-- Outcome value of a completed heal: the strings 'soup' and 'gapple'
returned at lines 626 and 633, or null. -/
inductive HealResult where
  | soup
  | gapple
deriving DecidableEq, Repr

/-- The per-session heal state object (lines 307-310). -/
structure HealState where
  inProgress : Bool
  lastHeal : Int
deriving DecidableEq, Repr

/-- Side-effecting calls `attemptHeal` makes, in order. -/
inductive HealAction where
  /-- Call `bot.equip(item, 'hand')`. -/
  | equip (item : Item) (dest : String)
  /-- Call `bot.activateItem()`. -/
  | activateItem
  /-- Schedule `bot.deactivateItem()` after the given delay. -/
  | setDeactivateTimer (ms : Nat)
  /-- Schedule `state.inProgress = false` after the given delay (the
  `finally` block, lines 634-639). -/
  | setClearInProgressTimer (ms : Nat)
deriving DecidableEq, Repr

/-- Inputs `attemptHeal` reads from the bot and the environment.
`equipOutcome` is the external client's response to the awaited
`bot.equip(chosen, 'hand')` call, the suspension point at which the
equip can throw. -/
structure HealEnv where
  entityPresent : Bool
  health : ℚ
  inventory : Option (List Item)
  now : Int
  equipOutcome : Except String Unit

/-- `findItemByNames(bot, names)` (lines 642-655): first name in table
order that matches an inventory item. -/
def findItemByNames (inventory : Option (List Item)) :
    List String → Option Item
  | [] => none
  | n :: rest =>
    match inventory with
    | none => none
    | some items =>
      match items.find? (fun it => it.name = n) with
      | some m => some m
      | none => findItemByNames inventory rest

/-- Result of one `attemptHeal` run: the returned/thrown value, the heal
state after the synchronous part of the run, and the actions issued. -/
structure HealOutput where
  result : Except String (Option HealResult)
  state : HealState
  actions : List HealAction
deriving Repr

/-- `attemptHeal(bot, advanced, state)` (lines 597-640). The guards
return null without touching anything; otherwise `inProgress` is set,
the chosen consumable is equipped and used, `lastHeal` is recorded at
use-begin, and the `finally` block always schedules the `inProgress`
reset after 600 ms (soup) or 2000 ms (golden apple), also when the
awaited equip throws, in which case the error propagates and `lastHeal`
keeps its previous value. -/
def attemptHeal (env : HealEnv) (advanced : AdvancedConfig)
    (state : HealState) : HealOutput :=
  if !env.entityPresent || env.health ≤ 0 then ⟨.ok none, state, []⟩
  else if env.health ≥ advanced.healThreshold then ⟨.ok none, state, []⟩
  else if state.inProgress
      || env.now - state.lastHeal < advanced.healCooldownMs then
    ⟨.ok none, state, []⟩
  else
    let soup := findItemByNames env.inventory HEALING_SOUPS
    let goldenApple :=
      match soup with
      | some _ => none
      | none => findItemByNames env.inventory GOLDEN_APPLES
    match soup, goldenApple with
    | none, none => ⟨.ok none, state, []⟩
    | some s, _ =>
      match env.equipOutcome with
      | .error e =>
        ⟨.error e, { state with inProgress := true },
         [.equip s "hand", .setClearInProgressTimer 600]⟩
      | .ok _ =>
        ⟨.ok (some .soup), { inProgress := true, lastHeal := env.now },
         [.equip s "hand", .activateItem, .setDeactivateTimer 150,
          .setClearInProgressTimer 600]⟩
    | none, some g =>
      match env.equipOutcome with
      | .error e =>
        ⟨.error e, { state with inProgress := true },
         [.equip g "hand", .setClearInProgressTimer 2000]⟩
      | .ok _ =>
        ⟨.ok (some .gapple), { inProgress := true, lastHeal := env.now },
         [.equip g "hand", .activateItem, .setDeactivateTimer 1600,
          .setClearInProgressTimer 2000]⟩

/-! ## Claim theorems -/

/-- C9: for every strafe tick, when no engagement target exists both
lateral keys and jump are released and nothing else changes (and no jump
pulse timer is scheduled); otherwise the strafe direction flips relative
to the previous tick and exactly one of the two lateral movement keys is
set active while the other is set inactive. -/
theorem strafeTick_spec (advanced : AdvancedConfig) (target : Option Entity)
    (randomDraw : ℚ) (s : MoveState) :
    (target = none →
      strafeTick advanced target randomDraw s =
        ({ s with left := false, right := false, jump := false }, none)) ∧
    (∀ e, target = some e →
      (strafeTick advanced target randomDraw s).1.strafeDirection =
          -s.strafeDirection ∧
        (strafeTick advanced target randomDraw s).1.left =
          !(strafeTick advanced target randomDraw s).1.right) := by
  constructor
  · intro h
    subst h
    rfl
  · intro e h
    subst h
    by_cases hc : advanced.jumpChance ≠ 0 ∧ randomDraw < advanced.jumpChance
    · simp [strafeTick, hc, mul_comm]
    · simp [strafeTick, hc, mul_comm]

/-- Witness for `strafeTick_spec` at concrete inputs. -/
theorem strafeTick_spec_witness :
    (strafeTick (godlikePreset.advanced.getD
        ⟨650, 220, 35 / 100, 14, 5500, 13 / 10⟩) none 0
        ⟨1, true, false, false⟩ =
      (⟨1, false, false, false⟩, none)) ∧
    (strafeTick (godlikePreset.advanced.getD
        ⟨650, 220, 35 / 100, 14, 5500, 13 / 10⟩) (some ⟨7, ⟨1, 0, 0⟩⟩) 1
        ⟨1, true, false, false⟩).1.strafeDirection = -1 := by
  refine ⟨(strafeTick_spec _ none 0 _).1 rfl, ?_⟩
  have h := ((strafeTick_spec (godlikePreset.advanced.getD
      ⟨650, 220, 35 / 100, 14, 5500, 13 / 10⟩) (some ⟨7, ⟨1, 0, 0⟩⟩) 1
      ⟨1, true, false, false⟩).2 ⟨7, ⟨1, 0, 0⟩⟩ rfl).1
  simpa using h

/-- C7: when the preset specifies `attackDurationMs`, a disengage timer
is scheduled for the engaged entity, and its callback stops the
engagement (dropping sprint when the preset maintains it) only when the
current engagement target is still that same entity; with a different
current target the callback changes nothing. -/
theorem disengage_checks_target (difficulty : DifficultyPreset) (d : Nat)
    (refreshedEntity e : Entity) (s : PvpState)
    (hdur : difficulty.attackDurationMs = some d) :
    scheduleDisengage difficulty refreshedEntity = some (d, refreshedEntity) ∧
    (s.pvpTarget = some e → e ≠ refreshedEntity →
      disengageOnTimeout difficulty refreshedEntity s = s) ∧
    (s.pvpTarget = some refreshedEntity →
      (disengageOnTimeout difficulty refreshedEntity s).pvpTarget = none ∧
      (difficulty.maintainSprint = true →
        (disengageOnTimeout difficulty refreshedEntity s).sprint = false)) := by
  refine ⟨by simp [scheduleDisengage, hdur], ?_, ?_⟩
  · intro ht hne
    have : ¬ s.pvpTarget = some refreshedEntity := by
      rw [ht]
      simpa using hne
    simp [disengageOnTimeout, this]
  · intro ht
    by_cases hm : difficulty.maintainSprint <;>
      simp [disengageOnTimeout, ht, hm]

/-- Witness for `disengage_checks_target` on the easy preset. -/
theorem disengage_checks_target_witness :
    scheduleDisengage easyPreset ⟨7, ⟨1, 0, 0⟩⟩ = some (4500, ⟨7, ⟨1, 0, 0⟩⟩) ∧
    (disengageOnTimeout easyPreset ⟨7, ⟨1, 0, 0⟩⟩
        ⟨some ⟨7, ⟨1, 0, 0⟩⟩, true⟩).pvpTarget = none := by
  have h := disengage_checks_target easyPreset 4500 ⟨7, ⟨1, 0, 0⟩⟩ ⟨7, ⟨1, 0, 0⟩⟩
    ⟨some ⟨7, ⟨1, 0, 0⟩⟩, true⟩ rfl
  exact ⟨h.1, (h.2.2 rfl).1⟩

/-- C4: `attemptHeal` is a no-op, returning null with the heal state
untouched and no action issued, whenever the bot is absent from the
world, or health is at or above the heal threshold, or a heal is already
in progress, or less than the heal cooldown has elapsed since the
recorded last heal timestamp. -/
theorem attemptHeal_guard_noop (env : HealEnv) (advanced : AdvancedConfig)
    (state : HealState)
    (h : env.entityPresent = false ∨ env.health ≥ advanced.healThreshold ∨
      state.inProgress = true ∨
      env.now - state.lastHeal < advanced.healCooldownMs) :
    attemptHeal env advanced state = ⟨.ok none, state, []⟩ := by
  unfold attemptHeal
  split
  · rfl
  · split
    · rfl
    · split
      · rfl
      · rename_i h1 h2 h3
        exfalso
        simp only [Bool.or_eq_true, Bool.not_eq_true', decide_eq_true_eq,
          not_or] at h1 h3
        rcases h with h | h | h | h
        · exact absurd h h1.1
        · exact absurd h h2
        · exact absurd h h3.1
        · exact absurd h h3.2

/-- Witness for `attemptHeal_guard_noop`: a heal already in progress. -/
theorem attemptHeal_guard_noop_witness :
    attemptHeal ⟨true, 10, some [], 100000, .ok ()⟩
      ⟨650, 220, 35 / 100, 14, 5500, 13 / 10⟩ ⟨true, 0⟩ =
      ⟨.ok none, ⟨true, 0⟩, []⟩ :=
  attemptHeal_guard_noop _ _ _ (Or.inr (Or.inr (Or.inl rfl)))

/-- C6: every `attemptHeal` run that sets `inProgress` also schedules
the timer that clears `inProgress` after the class-dependent reset
delay, for every equip outcome, success or thrown error alike. -/
theorem attemptHeal_always_unwinds (env : HealEnv)
    (advanced : AdvancedConfig) (state : HealState)
    (h0 : state.inProgress = false)
    (h1 : (attemptHeal env advanced state).state.inProgress = true) :
    ∃ d, HealAction.setClearInProgressTimer d ∈
      (attemptHeal env advanced state).actions := by
  revert h1
  unfold attemptHeal
  split
  · intro h1
    simp [h0] at h1
  · split
    · intro h1
      simp [h0] at h1
    · split
      · intro h1
        simp [h0] at h1
      · rcases hs : findItemByNames env.inventory HEALING_SOUPS with _ | s
        · rcases hg : findItemByNames env.inventory GOLDEN_APPLES with _ | g
          · intro h1
            simp [hs, hg, h0] at h1
          · rcases ho : env.equipOutcome with e | u <;>
              · intro _
                refine ⟨2000, ?_⟩
                simp [hs, hg, ho]
        · rcases ho : env.equipOutcome with e | u <;>
            · intro _
              refine ⟨600, ?_⟩
              simp [hs, ho]

/-- Witness for `attemptHeal_always_unwinds`: a soup heal whose equip
throws still schedules the clear timer. -/
theorem attemptHeal_always_unwinds_witness :
    (attemptHeal ⟨true, 10, some [⟨"mushroom_stew", 3⟩], 100000,
        .error "boom"⟩ ⟨650, 220, 35 / 100, 14, 5500, 13 / 10⟩
        ⟨false, 0⟩).state.inProgress = true ∧
    ∃ d, HealAction.setClearInProgressTimer d ∈
      (attemptHeal ⟨true, 10, some [⟨"mushroom_stew", 3⟩], 100000,
        .error "boom"⟩ ⟨650, 220, 35 / 100, 14, 5500, 13 / 10⟩
        ⟨false, 0⟩).actions :=
  ⟨rfl, attemptHeal_always_unwinds
    ⟨true, 10, some [⟨"mushroom_stew", 3⟩], 100000, .error "boom"⟩
    ⟨650, 220, 35 / 100, 14, 5500, 13 / 10⟩ ⟨false, 0⟩ rfl rfl⟩

/-- C10: whenever `attemptHeal` propagates an equip error (the run had
passed the guards and set `inProgress`), the `lastHeal` cooldown
timestamp keeps its previous value and the `inProgress` clear timer is
still scheduled. -/
theorem attemptHeal_error_keeps_cooldown (env : HealEnv)
    (advanced : AdvancedConfig) (state : HealState) (e : String)
    (h : (attemptHeal env advanced state).result = .error e) :
    (attemptHeal env advanced state).state.lastHeal = state.lastHeal ∧
    (attemptHeal env advanced state).state.inProgress = true ∧
    ∃ d, HealAction.setClearInProgressTimer d ∈
      (attemptHeal env advanced state).actions := by
  revert h
  unfold attemptHeal
  split
  · intro h
    exact absurd h (by simp)
  · split
    · intro h
      exact absurd h (by simp)
    · split
      · intro h
        exact absurd h (by simp)
      · rcases hs : findItemByNames env.inventory HEALING_SOUPS with _ | s
        · rcases hg : findItemByNames env.inventory GOLDEN_APPLES with _ | g
          · intro h
            simp [hs, hg] at h
          · rcases ho : env.equipOutcome with e | u
            · intro _
              refine ⟨by simp [hs, hg, ho], by simp [hs, hg, ho], 2000, ?_⟩
              simp [hs, hg, ho]
            · intro h
              simp [hs, hg, ho] at h
        · rcases ho : env.equipOutcome with e | u
          · intro _
            refine ⟨by simp [hs, ho], by simp [hs, ho], 600, ?_⟩
            simp [hs, ho]
          · intro h
            simp [hs, ho] at h

/-- Witness for `attemptHeal_error_keeps_cooldown`: a failed golden
apple heal keeps `lastHeal` at its previous value 42. -/
theorem attemptHeal_error_keeps_cooldown_witness :
    (attemptHeal ⟨true, 10, some [⟨"golden_apple", 3⟩], 100000,
        .error "boom"⟩ ⟨650, 220, 35 / 100, 14, 5500, 13 / 10⟩
        ⟨false, 42⟩).state.lastHeal = 42 ∧
    (attemptHeal ⟨true, 10, some [⟨"golden_apple", 3⟩], 100000,
        .error "boom"⟩ ⟨650, 220, 35 / 100, 14, 5500, 13 / 10⟩
        ⟨false, 42⟩).state.inProgress = true :=
  ⟨(attemptHeal_error_keeps_cooldown
      ⟨true, 10, some [⟨"golden_apple", 3⟩], 100000, .error "boom"⟩
      ⟨650, 220, 35 / 100, 14, 5500, 13 / 10⟩ ⟨false, 42⟩ "boom" rfl).1,
   (attemptHeal_error_keeps_cooldown
      ⟨true, 10, some [⟨"golden_apple", 3⟩], 100000, .error "boom"⟩
      ⟨650, 220, 35 / 100, 14, 5500, 13 / 10⟩ ⟨false, 42⟩ "boom" rfl).2.1⟩

/-- C2: along every event trace of a pvp-loop session, at most one
attack timer is pending; any pending attack timer is the one held by the
`scheduledAttackTimeout` variable and is the most recently created one,
so only the most recently scheduled attack can ever fire; and a scan
that finds a candidate cancels whatever timer was pending before it. -/
theorem attack_timer_single_pending (events : List AttackTimer.Event) :
    (AttackTimer.run AttackTimer.init events).live.length ≤ 1 ∧
    (∀ t ∈ (AttackTimer.run AttackTimer.init events).live,
      (AttackTimer.run AttackTimer.init events).timeoutVar = some t ∧
      t + 1 = (AttackTimer.run AttackTimer.init events).nextId) ∧
    (∀ t ∈ (AttackTimer.run AttackTimer.init events).live,
      t ∉ (AttackTimer.run AttackTimer.init
        (events ++ [AttackTimer.Event.scanCand])).live) := by
  have hinv := AttackTimer.at_inv_run AttackTimer.init events AttackTimer.at_inv_init
  set s := AttackTimer.run AttackTimer.init events with hs
  have hrun : AttackTimer.run AttackTimer.init
      (events ++ [AttackTimer.Event.scanCand]) =
      AttackTimer.step s AttackTimer.Event.scanCand := by
    rw [AttackTimer.run, List.foldl_append]
    rfl
  rcases hinv with h | ⟨u, hv, hl, hn⟩
  · refine ⟨by simp [h], ?_, ?_⟩ <;> intro t ht <;> rw [h] at ht <;> cases ht
  · refine ⟨by simp [hl], ?_, ?_⟩
    · intro t ht
      rw [hl] at ht
      rcases List.mem_singleton.mp ht with rfl
      exact ⟨hv, hn⟩
    · intro t ht
      rw [hl] at ht
      rcases List.mem_singleton.mp ht with rfl
      rw [hrun]
      show t ∉ (AttackTimer.step s AttackTimer.Event.scanCand).live
      rw [AttackTimer.step, hv]
      simp only [hl, List.erase_cons_head, List.nil_append,
        List.mem_singleton]
      omega

/-- Witness for `attack_timer_single_pending`: after two
candidate-finding scans only timer 1 is pending, and a further scan
cancels it. -/
theorem attack_timer_single_pending_witness :
    (AttackTimer.run AttackTimer.init
      [AttackTimer.Event.scanCand, AttackTimer.Event.scanCand]).live.length
      ≤ 1 ∧
    (AttackTimer.run AttackTimer.init
        [AttackTimer.Event.scanCand, AttackTimer.Event.scanCand]).timeoutVar
      = some 1 ∧
    1 ∉ (AttackTimer.run AttackTimer.init
      [AttackTimer.Event.scanCand, AttackTimer.Event.scanCand,
       AttackTimer.Event.scanCand]).live := by
  have h := attack_timer_single_pending
    [AttackTimer.Event.scanCand, AttackTimer.Event.scanCand]
  exact ⟨h.1, (h.2.1 1 (by decide)).1, h.2.2 1 (by decide)⟩

/-- C3: along every event trace of a session, at most one gear pass is
scheduled-and-not-yet-started at a time, and a `scheduleEquip` request
arriving while the `equipScheduled` debounce flag is set leaves the
state unchanged: it is dropped, not queued. -/
theorem equip_debounce_single_pass (events : List EquipDebounce.Event) :
    (EquipDebounce.run EquipDebounce.init events).pending.length ≤ 1 ∧
    ((EquipDebounce.run EquipDebounce.init events).equipScheduled = true →
      EquipDebounce.step (EquipDebounce.run EquipDebounce.init events)
        EquipDebounce.Event.request =
        EquipDebounce.run EquipDebounce.init events) := by
  have hinv := EquipDebounce.ed_inv_run EquipDebounce.init events
    EquipDebounce.ed_inv_init
  set s := EquipDebounce.run EquipDebounce.init events with hs
  constructor
  · rw [EquipDebounce.Inv] at hinv
    rw [hinv]
    split <;> omega
  · intro hf
    rw [EquipDebounce.step, if_pos hf]

/-- Witness for `equip_debounce_single_pass`: after one request the flag
is set and a second request is dropped. -/
theorem equip_debounce_single_pass_witness :
    (EquipDebounce.run EquipDebounce.init
      [EquipDebounce.Event.request]).pending.length ≤ 1 ∧
    EquipDebounce.step (EquipDebounce.run EquipDebounce.init
        [EquipDebounce.Event.request]) EquipDebounce.Event.request =
      EquipDebounce.run EquipDebounce.init [EquipDebounce.Event.request] := by
  have h := equip_debounce_single_pass [EquipDebounce.Event.request]
  exact ⟨h.1, h.2 rfl⟩

/-- C5: in a per-slot gear pass, an equip call is issued exactly when
the best-ranked inventory candidate exists and its rank in the slot's
table is strictly lower (better) than the rank of the currently equipped
item (`Infinity` when nothing is equipped or the equipped item is
unranked); equal or worse candidates never trigger an equip call. -/
theorem equip_only_on_strict_improvement (bot : GearBot)
    (priorityList : List String) (destination : String)
    (equipOutcome : Except String Unit) (it : Item) :
    (equipBestItemForSlot bot priorityList destination equipOutcome).1 =
        some it ↔
      (priorityList.isEmpty = false ∧
       findBestInventoryItem bot priorityList = some it ∧
       priorityLt (getItemPriority priorityList (some it))
         (getItemPriority priorityList
           (getEquippedItem bot destination)) = true) := by
  unfold equipBestItemForSlot
  split
  · rename_i hemp
    simp [hemp]
  · rename_i hemp
    rcases hb : findBestInventoryItem bot priorityList with _ | best
    · simp [hemp]
    · simp only
      split
      · rename_i hlt
        have h1 : (match equipOutcome with
            | Except.ok _ => ((some best : Option Item), Except.ok ())
            | Except.error msg =>
              if itemNotInInventoryTest msg then (some best, Except.ok ())
              else (some best, Except.error msg)).1 = some best := by
          rcases equipOutcome with msg | u
          · by_cases ht : itemNotInInventoryTest msg <;> simp [ht]
          · rfl
        rw [h1]
        constructor
        · intro h
          obtain rfl : best = it := Option.some_inj.mp h
          exact ⟨by simpa using hemp, rfl, hlt⟩
        · intro h
          exact h.2.1
      · rename_i hlt
        constructor
        · intro h
          exact absurd h (by simp)
        · intro h
          obtain rfl : best = it := Option.some_inj.mp h.2.1
          exact absurd h.2.2 hlt

/-- Witness for `equip_only_on_strict_improvement`: an iron sword in the
inventory with an empty hand slot triggers an equip call. -/
theorem equip_only_on_strict_improvement_witness :
    (equipBestItemForSlot
      ⟨some ⟨[⟨"iron_sword", 0⟩], fun _ => none⟩, some fun _ => some 5⟩
      WEAPON_PRIORITY "hand" (.ok ())).1 = some ⟨"iron_sword", 0⟩ :=
  (equip_only_on_strict_improvement
    ⟨some ⟨[⟨"iron_sword", 0⟩], fun _ => none⟩, some fun _ => some 5⟩
    WEAPON_PRIORITY "hand" (.ok ()) ⟨"iron_sword", 0⟩).mpr
    ⟨rfl, rfl, rfl⟩

/-- C8: when the equip call of a per-slot gear pass fails, an error
whose message matches the case-insensitive pattern `item is not in
inventory` is swallowed (the function completes normally and the pass
continues with the next slot), while any other equip error is
rethrown to the caller. -/
theorem equip_error_swallow (bot : GearBot) (priorityList : List String)
    (destination : String) (msg : String) (it : Item)
    (hissued : (equipBestItemForSlot bot priorityList destination
      (.error msg)).1 = some it) :
    (itemNotInInventoryTest msg = true →
      (equipBestItemForSlot bot priorityList destination
        (.error msg)).2 = .ok ()) ∧
    (itemNotInInventoryTest msg = false →
      (equipBestItemForSlot bot priorityList destination
        (.error msg)).2 = .error msg) := by
  revert hissued
  unfold equipBestItemForSlot
  split
  · intro h
    exact absurd h (by simp)
  · rcases hb : findBestInventoryItem bot priorityList with _ | best
    · intro h
      exact absurd h (by simp)
    · simp only
      split
      · intro _
        constructor
        · intro ht
          simp [ht]
        · intro ht
          simp [ht]
      · intro h
        exact absurd h (by simp)

/-- Witness for `equip_error_swallow`: the message `Item is not in
inventory.` is swallowed. -/
theorem equip_error_swallow_witness :
    itemNotInInventoryTest "Item is not in inventory." = true ∧
    (equipBestItemForSlot
      ⟨some ⟨[⟨"iron_sword", 0⟩], fun _ => none⟩, some fun _ => some 5⟩
      WEAPON_PRIORITY "hand"
      (.error "Item is not in inventory.")).2 = .ok () :=
  ⟨by decide,
    (equip_error_swallow
      ⟨some ⟨[⟨"iron_sword", 0⟩], fun _ => none⟩, some fun _ => some 5⟩
      WEAPON_PRIORITY "hand" "Item is not in inventory."
      ⟨"iron_sword", 0⟩ (by decide)).1 (by decide)⟩

/-- Well-formedness of a scan accumulator: either nothing was selected
yet and the closest distance is still `Infinity`, or the selected
candidate is some other player's in-range entity whose recorded distance
is its actual squared distance from the bot. -/
def GoodAcc (u : String) (bp : Vec3) (m : ℚ)
    (acc : Option TargetCandidate × Option ℚ) : Prop :=
  acc = (none, none) ∨
    ∃ c, acc = (some c, some (distanceSquared bp c.entity.position)) ∧
      distanceSquared bp c.entity.position ≤ m ∧ c.username ≠ u

/-- The accumulator's recorded distance bounds the distance of the
entry, whenever the entry is eligible. -/
def BoundsEntry (u : String) (bp : Vec3) (m : ℚ)
    (acc : Option TargetCandidate × Option ℚ) (p : PlayerEntry) : Prop :=
  eligibleEntry u bp m p →
    ∃ d, acc.2 = some d ∧
      ∀ e, p.entity = some e → d ≤ distanceSquared bp e.position

theorem scanStep_not_eligible (u : String) (bp : Vec3) (m : ℚ)
    (acc : Option TargetCandidate × Option ℚ) (p : PlayerEntry)
    (hne : ¬ eligibleEntry u bp m p) : scanStep u bp m acc p = acc := by
  unfold scanStep
  by_cases hu : p.username = u
  · simp [hu]
  · rcases he : p.entity with _ | e
    · simp [hu, he]
    · have hd : ¬ distanceSquared bp e.position ≤ m := fun hle =>
        hne ⟨hu, e, he, hle⟩
      simp [hu, he, hd]

theorem scanStep_good (u : String) (bp : Vec3) (m : ℚ)
    (acc : Option TargetCandidate × Option ℚ) (p : PlayerEntry)
    (h : GoodAcc u bp m acc) : GoodAcc u bp m (scanStep u bp m acc p) := by
  unfold scanStep
  by_cases hu : p.username = u
  · simpa [hu]
  · rcases he : p.entity with _ | e
    · simpa [hu, he]
    · by_cases hcond : (ltClosest (distanceSquared bp e.position) acc.2 &&
          decide (distanceSquared bp e.position ≤ m)) = true
      · have hm : distanceSquared bp e.position ≤ m := by
          have := (Bool.and_eq_true _ _).mp hcond
          exact of_decide_eq_true this.2
        right
        exact ⟨⟨p.username, e⟩, by simp [hu, he, hcond], hm, hu⟩
      · simpa [hu, he, hcond]

theorem scanStep_bounds_mono (u : String) (bp : Vec3) (m : ℚ)
    (acc : Option TargetCandidate × Option ℚ) (p q : PlayerEntry)
    (h : BoundsEntry u bp m acc q) :
    BoundsEntry u bp m (scanStep u bp m acc p) q := by
  intro helig
  obtain ⟨d, hd, hdle⟩ := h helig
  obtain ⟨a1, a2⟩ := acc
  obtain rfl : a2 = some d := hd
  by_cases hu : p.username = u
  · exact ⟨d, by simp [scanStep, hu], hdle⟩
  · rcases he : p.entity with _ | e
    · exact ⟨d, by simp [scanStep, hu, he], hdle⟩
    · by_cases hlt : distanceSquared bp e.position < d ∧
        distanceSquared bp e.position ≤ m
      · have hcond : (ltClosest (distanceSquared bp e.position) (some d) &&
            decide (distanceSquared bp e.position ≤ m)) = true := by
          simp [ltClosest, hlt.1, hlt.2]
        refine ⟨distanceSquared bp e.position,
          by simp [scanStep, hu, he, hcond], ?_⟩
        intro f hf
        exact le_of_lt (lt_of_lt_of_le hlt.1 (hdle f hf))
      · have hcond : (ltClosest (distanceSquared bp e.position) (some d) &&
            decide (distanceSquared bp e.position ≤ m)) = false := by
          rcases not_and_or.mp hlt with h1 | h2
          · simp [ltClosest, h1]
          · simp [h2]
        exact ⟨d, by simp [scanStep, hu, he, hcond], hdle⟩

theorem scanStep_bounds_self (u : String) (bp : Vec3) (m : ℚ)
    (acc : Option TargetCandidate × Option ℚ) (p : PlayerEntry) :
    BoundsEntry u bp m (scanStep u bp m acc p) p := by
  intro helig
  obtain ⟨hu, e, he, hm⟩ := helig
  obtain ⟨a1, a2⟩ := acc
  rcases a2 with _ | d
  · have hcond : (ltClosest (distanceSquared bp e.position)
        (none : Option ℚ) && decide (distanceSquared bp e.position ≤ m)) =
        true := by
      simp [ltClosest, hm]
    refine ⟨distanceSquared bp e.position,
      by simp [scanStep, hu, he, hcond], ?_⟩
    intro f hf
    rw [he] at hf
    rw [Option.some_inj.mp hf]
  · by_cases hlt : distanceSquared bp e.position < d
    · have hcond : (ltClosest (distanceSquared bp e.position) (some d) &&
          decide (distanceSquared bp e.position ≤ m)) = true := by
        simp [ltClosest, hlt, hm]
      refine ⟨distanceSquared bp e.position,
        by simp [scanStep, hu, he, hcond], ?_⟩
      intro f hf
      rw [he] at hf
      rw [Option.some_inj.mp hf]
    · have hcond : (ltClosest (distanceSquared bp e.position) (some d) &&
          decide (distanceSquared bp e.position ≤ m)) = false := by
        simp [ltClosest, hlt]
      refine ⟨d, by simp [scanStep, hu, he, hcond], ?_⟩
      intro f hf
      rw [he] at hf
      rw [← Option.some_inj.mp hf]
      exact le_of_not_lt hlt

theorem foldl_scanStep_spec (u : String) (bp : Vec3) (m : ℚ)
    (ps : List PlayerEntry) :
    ∀ acc, GoodAcc u bp m acc →
      GoodAcc u bp m (ps.foldl (scanStep u bp m) acc) ∧
      (∀ q, BoundsEntry u bp m acc q →
        BoundsEntry u bp m (ps.foldl (scanStep u bp m) acc) q) ∧
      (∀ p ∈ ps, BoundsEntry u bp m (ps.foldl (scanStep u bp m) acc) p) := by
  induction ps with
  | nil =>
    intro acc hacc
    exact ⟨hacc, fun q h => h, by simp⟩
  | cons p ps ih =>
    intro acc hacc
    obtain ⟨g1, g2, g3⟩ := ih (scanStep u bp m acc p)
      (scanStep_good u bp m acc p hacc)
    rw [List.foldl_cons]
    refine ⟨g1, fun q hq => g2 q (scanStep_bounds_mono u bp m acc p q hq), ?_⟩
    intro r hr
    rcases List.mem_cons.mp hr with rfl | hmem
    · exact g2 r (scanStep_bounds_self u bp m acc r)
    · exact g3 r hmem

theorem foldl_scanStep_ineligible (u : String) (bp : Vec3) (m : ℚ)
    (ps : List PlayerEntry) :
    ∀ acc, (∀ p ∈ ps, ¬ eligibleEntry u bp m p) →
      ps.foldl (scanStep u bp m) acc = acc := by
  induction ps with
  | nil => intro acc _; rfl
  | cons p ps ih =>
    intro acc h
    rw [List.foldl_cons,
      scanStep_not_eligible u bp m acc p (h p (List.mem_cons_self p ps))]
    exact ih acc (fun q hq => h q (List.mem_cons_of_mem p hq))

/-- C1 (amended): for every scan in which the bot is present in the
world and the players map exists, `findClosestPlayer` returns the
candidate with minimum squared three-dimensional Euclidean distance from
the bot among all other known player entities; only candidates whose
squared distance is less than or equal to `maxDistanceSq` are eligible;
when at least one eligible candidate exists the selected candidate's
squared distance is the minimum among eligible candidates, and when no
player is within range no candidate is returned. -/
theorem findClosestPlayer_min_distance (bot : ScanBot) (m : ℚ) (be : Entity)
    (ps : List PlayerEntry) (hent : bot.entity = some be)
    (hps : bot.players = some ps) :
    (∀ c, findClosestPlayer bot m = some c →
      c.username ≠ bot.username ∧
      distanceSquared be.position c.entity.position ≤ m ∧
      ∀ p ∈ ps, eligibleEntry bot.username be.position m p →
        ∀ e, p.entity = some e →
          distanceSquared be.position c.entity.position ≤
            distanceSquared be.position e.position) ∧
    ((∀ p ∈ ps, ¬ eligibleEntry bot.username be.position m p) →
      findClosestPlayer bot m = none) ∧
    (∀ p ∈ ps, eligibleEntry bot.username be.position m p →
      findClosestPlayer bot m ≠ none) := by
  have hfc : findClosestPlayer bot m =
      (ps.foldl (scanStep bot.username be.position m) (none, none)).1 := by
    unfold findClosestPlayer
    rw [hps, hent]
  obtain ⟨g1, _, g3⟩ := foldl_scanStep_spec bot.username be.position m ps
    (none, none) (Or.inl rfl)
  refine ⟨?_, ?_, ?_⟩
  · intro c hc
    rw [hfc] at hc
    rcases g1 with hg | ⟨c2, hacc, hm, hu⟩
    · rw [hg] at hc
      cases hc
    · rw [hacc] at hc
      have hcc : c2 = c := Option.some_inj.mp hc
      rw [← hcc]
      refine ⟨hu, hm, ?_⟩
      intro p hp helig e he
      obtain ⟨d, hd, hdle⟩ := g3 p hp helig
      rw [hacc] at hd
      have hd2 : some (distanceSquared be.position c2.entity.position) =
          some d := hd
      rw [Option.some_inj.mp hd2]
      exact hdle e he
  · intro h
    rw [hfc, foldl_scanStep_ineligible bot.username be.position m ps
      (none, none) h]
  · intro p hp helig hnone
    obtain ⟨d, hd, _⟩ := g3 p hp helig
    rw [hfc] at hnone
    rcases g1 with hg | ⟨c2, hacc, _, _⟩
    · rw [hg] at hd
      simp at hd
    · rw [hacc] at hnone
      simp at hnone

/-- Witness for `findClosestPlayer_min_distance`: with two players at
squared distances 25 and 100 the scan selects the nearer one, which is
within range. -/
theorem findClosestPlayer_min_distance_witness :
    findClosestPlayer
      ⟨"KitPvPBot_1_1", some ⟨0, ⟨0, 0, 0⟩⟩,
        some [⟨"alice", some ⟨1, ⟨3, 0, 4⟩⟩⟩, ⟨"bob", some ⟨2, ⟨10, 0, 0⟩⟩⟩]⟩
      (MAX_SCAN_DISTANCE * MAX_SCAN_DISTANCE) =
      some ⟨"alice", ⟨1, ⟨3, 0, 4⟩⟩⟩ ∧
    distanceSquared (⟨0, 0, 0⟩ : Vec3) ⟨3, 0, 4⟩ ≤
      MAX_SCAN_DISTANCE * MAX_SCAN_DISTANCE := by
  have s1 : scanStep "KitPvPBot_1_1" ⟨0, 0, 0⟩
      (MAX_SCAN_DISTANCE * MAX_SCAN_DISTANCE) (none, none)
      ⟨"alice", some ⟨1, ⟨3, 0, 4⟩⟩⟩ =
      (some ⟨"alice", ⟨1, ⟨3, 0, 4⟩⟩⟩, some 25) := by
    simp only [scanStep]
    norm_num [ltClosest, distanceSquared, MAX_SCAN_DISTANCE]
    all_goals decide
  have s2 : scanStep "KitPvPBot_1_1" ⟨0, 0, 0⟩
      (MAX_SCAN_DISTANCE * MAX_SCAN_DISTANCE)
      (some ⟨"alice", ⟨1, ⟨3, 0, 4⟩⟩⟩, some 25)
      ⟨"bob", some ⟨2, ⟨10, 0, 0⟩⟩⟩ =
      (some ⟨"alice", ⟨1, ⟨3, 0, 4⟩⟩⟩, some 25) := by
    simp only [scanStep]
    norm_num [ltClosest, distanceSquared, MAX_SCAN_DISTANCE]
  have hres : findClosestPlayer
      ⟨"KitPvPBot_1_1", some ⟨0, ⟨0, 0, 0⟩⟩,
        some [⟨"alice", some ⟨1, ⟨3, 0, 4⟩⟩⟩, ⟨"bob", some ⟨2, ⟨10, 0, 0⟩⟩⟩]⟩
      (MAX_SCAN_DISTANCE * MAX_SCAN_DISTANCE) =
      some ⟨"alice", ⟨1, ⟨3, 0, 4⟩⟩⟩ := by
    simp only [findClosestPlayer, List.foldl_cons, List.foldl_nil, s1, s2]
  refine ⟨hres, ?_⟩
  exact ((findClosestPlayer_min_distance
    ⟨"KitPvPBot_1_1", some ⟨0, ⟨0, 0, 0⟩⟩,
      some [⟨"alice", some ⟨1, ⟨3, 0, 4⟩⟩⟩, ⟨"bob", some ⟨2, ⟨10, 0, 0⟩⟩⟩]⟩
    (MAX_SCAN_DISTANCE * MAX_SCAN_DISTANCE) ⟨0, ⟨0, 0, 0⟩⟩
    [⟨"alice", some ⟨1, ⟨3, 0, 4⟩⟩⟩, ⟨"bob", some ⟨2, ⟨10, 0, 0⟩⟩⟩]
    rfl rfl).1 ⟨"alice", ⟨1, ⟨3, 0, 4⟩⟩⟩ hres).2.1

/-- C1 counterexample, refuting the claim as stated on two concrete
scans: (a) with the bot at the origin, a player at (5, 20, 0) has the
smaller squared *planar* distance (25 < 100), yet the code selects the
player at (10, 0, 0), because it minimizes the full three-dimensional
squared distance (100 < 425); (b) a player at exactly squared distance
48², which the claim's strict bound excludes, is still returned. -/
theorem findClosestPlayer_claim_counterexample :
    (findClosestPlayer
        ⟨"KitPvPBot_1_1", some ⟨0, ⟨0, 0, 0⟩⟩,
          some [⟨"alice", some ⟨1, ⟨5, 20, 0⟩⟩⟩,
                ⟨"bob", some ⟨2, ⟨10, 0, 0⟩⟩⟩]⟩
        (MAX_SCAN_DISTANCE * MAX_SCAN_DISTANCE) =
        some ⟨"bob", ⟨2, ⟨10, 0, 0⟩⟩⟩ ∧
      specPlanarDistanceSquared (⟨0, 0, 0⟩ : Vec3) ⟨5, 20, 0⟩ <
        specPlanarDistanceSquared (⟨0, 0, 0⟩ : Vec3) ⟨10, 0, 0⟩) ∧
    (findClosestPlayer
        ⟨"KitPvPBot_1_1", some ⟨0, ⟨0, 0, 0⟩⟩,
          some [⟨"carol", some ⟨3, ⟨48, 0, 0⟩⟩⟩]⟩
        (MAX_SCAN_DISTANCE * MAX_SCAN_DISTANCE) =
        some ⟨"carol", ⟨3, ⟨48, 0, 0⟩⟩⟩ ∧
      distanceSquared (⟨0, 0, 0⟩ : Vec3) ⟨48, 0, 0⟩ =
        MAX_SCAN_DISTANCE * MAX_SCAN_DISTANCE) := by
  have s1 : scanStep "KitPvPBot_1_1" ⟨0, 0, 0⟩
      (MAX_SCAN_DISTANCE * MAX_SCAN_DISTANCE) (none, none)
      ⟨"alice", some ⟨1, ⟨5, 20, 0⟩⟩⟩ =
      (some ⟨"alice", ⟨1, ⟨5, 20, 0⟩⟩⟩, some 425) := by
    simp only [scanStep]
    norm_num [ltClosest, distanceSquared, MAX_SCAN_DISTANCE]
    all_goals decide
  have s2 : scanStep "KitPvPBot_1_1" ⟨0, 0, 0⟩
      (MAX_SCAN_DISTANCE * MAX_SCAN_DISTANCE)
      (some ⟨"alice", ⟨1, ⟨5, 20, 0⟩⟩⟩, some 425)
      ⟨"bob", some ⟨2, ⟨10, 0, 0⟩⟩⟩ =
      (some ⟨"bob", ⟨2, ⟨10, 0, 0⟩⟩⟩, some 100) := by
    simp only [scanStep]
    norm_num [ltClosest, distanceSquared, MAX_SCAN_DISTANCE]
    all_goals decide
  have s3 : scanStep "KitPvPBot_1_1" ⟨0, 0, 0⟩
      (MAX_SCAN_DISTANCE * MAX_SCAN_DISTANCE) (none, none)
      ⟨"carol", some ⟨3, ⟨48, 0, 0⟩⟩⟩ =
      (some ⟨"carol", ⟨3, ⟨48, 0, 0⟩⟩⟩, some 2304) := by
    simp only [scanStep]
    norm_num [ltClosest, distanceSquared, MAX_SCAN_DISTANCE]
    all_goals decide
  refine ⟨⟨?_, ?_⟩, ?_, ?_⟩
  · simp only [findClosestPlayer, List.foldl_cons, List.foldl_nil, s1, s2]
  · norm_num [specPlanarDistanceSquared]
  · simp only [findClosestPlayer, List.foldl_cons, List.foldl_nil, s3]
  · norm_num [distanceSquared, MAX_SCAN_DISTANCE]

end KitPvp
